import Mathlib

/-!
Verification of the Voucher Ledger & Redemption Engine of the
AN6007 CDC-voucher repository.

Each namespace shallowly embeds one source file of the repository:

* `Balanced`    — `cdc_mobile_app2.py` (`suggest_balanced_combo`, `_imbalance_score`)
* `Cdc`         — `cdc_classes.py` (`CDCSystem`: register / claim / expiry sweep / balance cache)
* `App`         — `app.py` (`InMemoryStore`: balances, claims, fixed-count redemption, hourly rows)
* `Services`    — `services.py` (`redeem`: selection by denomination counts, audit rows)
* `NewServices` — `new_services.py` / `new_data_structure.py` (greedy redemption over a voucher index)
* `Redemption`  — `redemption.py` (`compile_redemptions_by_hour`)

Python `dict`s keyed by ids are embedded as functions `String → Option _`
when the code only ever looks keys up, and as association lists when the
code iterates over them.  Machine-level details that no modelled operation
reads (voucher-code strings built from UUIDs, CSV quoting) are not part of
the state.  The floating-point Euclidean distance of `_imbalance_score` is
embedded as an exact rational *squared* distance; `Real.sqrt` is strictly
monotone on nonnegative reals, so comparisons of the embedded scores
coincide with comparisons of the real distances (this bridge is proved, not
assumed, in `Balanced.sltR_iff_slt`).
-/

namespace Balanced

/-- Availability per denomination, the `available_counts` dict `{2: n2, 5: n5, 10: n10}`. -/
structure Avail where
  n2 : Nat
  n5 : Nat
  n10 : Nat
deriving DecidableEq, Repr

/-- A candidate combination, the `used` dict `{10: c10, 5: c5, 2: c2}`. -/
structure Combo where
  c10 : Nat
  c5 : Nat
  c2 : Nat
deriving DecidableEq, Repr

/-- `10 * c10 + 5 * c5 + 2 * c2`, the `achieved` amount of a combination. -/
def Combo.amount (c : Combo) : Nat := 10 * c.c10 + 5 * c.c5 + 2 * c.c2

/-- `sum(self.used.values())`, the number of vouchers a combination uses. -/
def Combo.numVouchers (c : Combo) : Nat := c.c10 + c.c5 + c.c2

/-- `sum(d * available_counts.get(d, 0) for d in DENOMS)`. -/
def maxSpendable (a : Avail) : Nat := 2 * a.n2 + 5 * a.n5 + 10 * a.n10

/-- Total voucher count of an availability map. -/
def totalCount (a : Avail) : Nat := a.n2 + a.n5 + a.n10

/-- The per-denomination share vector `(s10, s5, s2)` of `_imbalance_score.shares`:
zero when the total count is zero, else `count[d] / total`. -/
def shares (a : Avail) : ℚ × ℚ × ℚ :=
  if totalCount a = 0 then (0, 0, 0)
  else ((a.n10 : ℚ) / totalCount a, (a.n5 : ℚ) / totalCount a, (a.n2 : ℚ) / totalCount a)

/-- Squared Euclidean distance between the share vectors of `orig` and `remaining`;
`_imbalance_score` returns the square root of this quantity. -/
def imbalanceSq (orig remaining : Avail) : ℚ :=
  let s0 := shares orig
  let s1 := shares remaining
  (s0.1 - s1.1) ^ 2 + (s0.2.1 - s1.2.1) ^ 2 + (s0.2.2 - s1.2.2) ^ 2

/-- `remaining = {d: orig[d] - used[d] for d in DENOMS}` (combinations produced by the
search never exceed the availability, so natural subtraction is exact). -/
def remainingAvail (a : Avail) (c : Combo) : Avail :=
  ⟨a.n2 - c.c2, a.n5 - c.c5, a.n10 - c.c10⟩

/-- Score triples `(leftover, vouchers used, squared imbalance)`. -/
abbrev Score := Nat × Nat × ℚ

/-- The `score` tuple of a combination:
`(leftover, c10 + c5 + c2, _imbalance_score(orig, remaining))`, with the third
component squared (see module comment). -/
def score (cap : Nat) (a : Avail) (c : Combo) : Score :=
  (cap - c.amount, c.numVouchers, imbalanceSq a (remainingAvail a c))

/-- Python's lexicographic tuple comparison `score < best_score`. -/
def slt (x y : Score) : Prop :=
  x.1 < y.1 ∨ (x.1 = y.1 ∧ (x.2.1 < y.2.1 ∨ (x.2.1 = y.2.1 ∧ x.2.2 < y.2.2)))

instance (x y : Score) : Decidable (slt x y) := by
  unfold slt; infer_instance

/-- The initial `best_score = (10**9, 10**9, 10**9)`; the third component is squared
like every other third component it is compared against. -/
def sentinel : Score := (10 ^ 9, 10 ^ 9, (10 ^ 18 : ℚ))

/-- The triple loop of `suggest_balanced_combo`, in iteration order:
`c10` up to `min(orig[10], cap_target // 10)`, then `c5` up to
`min(orig[5], remaining_after_10 // 5)`, then `c2` up to
`min(orig[2], remaining_after_5 // 2)`. -/
def candidates (cap : Nat) (a : Avail) : List Combo :=
  (List.range (min a.n10 (cap / 10) + 1)).flatMap (fun c10 =>
    let r10 := cap - 10 * c10
    (List.range (min a.n5 (r10 / 5) + 1)).flatMap (fun c5 =>
      let r5 := r10 - 5 * c5
      (List.range (min a.n2 (r5 / 2) + 1)).map (fun c2 => ⟨c10, c5, c2⟩)))

/-- One step of the search loop: skip combinations with `achieved <= 0`, otherwise
replace the incumbent when `score < best_score`. -/
def step (cap : Nat) (a : Avail) (acc : Option Combo × Score) (c : Combo) :
    Option Combo × Score :=
  if c.amount = 0 then acc
  else if slt (score cap a c) acc.2 then (some c, score cap a c) else acc

/-- The full search: fold the loop body over the enumeration, starting from
`best = None`, `best_score = sentinel`; return the final `best`. -/
def selectBest (cap : Nat) (a : Avail) : Option Combo :=
  ((candidates cap a).foldl (step cap a) (none, sentinel)).1

/-- `min(target_amount, max_spendable)` as a natural number (the target is positive
whenever this is used, so `toNat` loses nothing). -/
def capTarget (target : Int) (a : Avail) : Nat :=
  (min target (maxSpendable a : Int)).toNat

/-- `suggest_balanced_combo(target_amount, available_counts)`:
`(None, 0)` for a non-positive target, otherwise the best combination of the
bounded exhaustive search and its achieved amount (`(None, 0)` when no
combination with positive achieved amount exists). -/
def suggest_balanced_combo (target : Int) (a : Avail) : Option Combo × Int :=
  if target ≤ 0 then (none, 0)
  else
    match selectBest (capTarget target a) a with
    | none => (none, 0)
    | some b => (some b, (b.amount : Int))

/-- A combination the specification quantifies over: within availability, with
positive achieved amount not exceeding the capped target. -/
def Feasible (cap : Nat) (a : Avail) (c : Combo) : Prop :=
  c.c2 ≤ a.n2 ∧ c.c5 ≤ a.n5 ∧ c.c10 ≤ a.n10 ∧ 0 < c.amount ∧ c.amount ≤ cap

instance (cap : Nat) (a : Avail) (c : Combo) : Decidable (Feasible cap a c) := by
  unfold Feasible; infer_instance

/-- Lexicographic comparison of real-valued score triples; used to state minimality
with the actual `Real.sqrt` Euclidean distance in the third slot. -/
def sltR (x y : Nat × Nat × ℝ) : Prop :=
  x.1 < y.1 ∨ (x.1 = y.1 ∧ (x.2.1 < y.2.1 ∨ (x.2.1 = y.2.1 ∧ x.2.2 < y.2.2)))

/-- The greedy largest-first combination; used only to show that whenever any
feasible combination exists, one with leftover at most 9 exists. -/
def greedy (cap : Nat) (a : Avail) : Combo :=
  let g10 := min a.n10 (cap / 10)
  let r1 := cap - 10 * g10
  let g5 := min a.n5 (r1 / 5)
  let r2 := r1 - 5 * g5
  let g2 := min a.n2 (r2 / 2)
  ⟨g10, g5, g2⟩

theorem slt_irrefl (x : Score) : ¬ slt x x := by
  rcases x with ⟨l, u, q⟩
  simp [slt]

theorem slt_trans {x y z : Score} (hxy : slt x y) (hyz : slt y z) : slt x z := by
  rcases x with ⟨l1, u1, q1⟩
  rcases y with ⟨l2, u2, q2⟩
  rcases z with ⟨l3, u3, q3⟩
  simp only [slt] at hxy hyz ⊢
  rcases hxy with h | ⟨hl, h | ⟨hu, hq⟩⟩ <;>
    rcases hyz with h' | ⟨hl', h' | ⟨hu', hq'⟩⟩ <;>
    first
      | (left; omega)
      | (right; exact ⟨by omega, by left; omega⟩)
      | (right; exact ⟨by omega, Or.inr ⟨by omega, lt_trans hq hq'⟩⟩)

theorem slt_asymm {x y : Score} (h : slt x y) : ¬ slt y x :=
  fun h' => slt_irrefl x (slt_trans h h')

/-- The squared imbalance is a sum of squares, hence nonnegative. -/
theorem imbalanceSq_nonneg (o r : Avail) : 0 ≤ imbalanceSq o r := by
  unfold imbalanceSq
  positivity

/-- Comparing real score triples whose third slots are `Real.sqrt` of nonnegative
rationals is the same as comparing the triples of the squared quantities:
`Real.sqrt` is strictly monotone on nonnegative arguments. -/
theorem sltR_iff_slt (l1 u1 l2 u2 : Nat) (q1 q2 : ℚ) (h1 : 0 ≤ q1) :
    sltR (l1, u1, Real.sqrt (q1 : ℝ)) (l2, u2, Real.sqrt (q2 : ℝ)) ↔
      slt (l1, u1, q1) (l2, u2, q2) := by
  unfold sltR slt
  simp only
  have hs : Real.sqrt (q1 : ℝ) < Real.sqrt (q2 : ℝ) ↔ q1 < q2 := by
    rw [Real.sqrt_lt_sqrt_iff (by exact_mod_cast h1)]
    exact_mod_cast Iff.rfl
  constructor <;>
    (rintro (h | ⟨hl, h | ⟨hu, hq⟩⟩)
     · exact Or.inl h
     · exact Or.inr ⟨hl, Or.inl h⟩
     · exact Or.inr ⟨hl, Or.inr ⟨hu, by first | exact hs.1 hq | exact hs.2 hq⟩⟩)

/-- Behaviour of `foldl step` relative to an arbitrary starting accumulator:
no skipped-over feasible combination scores strictly below the final score; the
final score never exceeds the starting one; and the result either is the starting
accumulator or holds a visited combination together with its own score. -/
theorem foldl_step_spec (cap : Nat) (a : Avail) :
    ∀ (l : List Combo) (acc : Option Combo × Score),
      (∀ c ∈ l, c.amount ≠ 0 → ¬ slt (score cap a c) (l.foldl (step cap a) acc).2) ∧
      (slt (l.foldl (step cap a) acc).2 acc.2 ∨ (l.foldl (step cap a) acc).2 = acc.2) ∧
      ((l.foldl (step cap a) acc) = acc ∨
        ∃ b ∈ l, b.amount ≠ 0 ∧ (l.foldl (step cap a) acc).1 = some b ∧
          (l.foldl (step cap a) acc).2 = score cap a b) := by
  intro l
  induction l with
  | nil => intro acc; exact ⟨by simp, Or.inr rfl, Or.inl rfl⟩
  | cons c t ih =>
    intro acc
    by_cases hz : c.amount = 0
    · have hstep : step cap a acc c = acc := by simp [step, hz]
      obtain ⟨iha, ihb, ihc⟩ := ih acc
      refine ⟨?_, ?_, ?_⟩
      · intro d hd hdz
        rcases List.mem_cons.1 hd with rfl | hd'
        · exact absurd hz hdz
        · simpa [List.foldl_cons, hstep] using iha d hd' hdz
      · simpa [List.foldl_cons, hstep] using ihb
      · rcases ihc with h | ⟨b, hb, hbz, h1, h2⟩
        · exact Or.inl (by simpa [List.foldl_cons, hstep] using h)
        · exact Or.inr ⟨b, List.mem_cons_of_mem _ hb, hbz,
            by simpa [List.foldl_cons, hstep] using h1,
            by simpa [List.foldl_cons, hstep] using h2⟩
    · by_cases himp : slt (score cap a c) acc.2
      · have hstep : step cap a acc c = (some c, score cap a c) := by
          simp [step, hz, himp]
        obtain ⟨iha, ihb, ihc⟩ := ih (some c, score cap a c)
        have hfold : (c :: t).foldl (step cap a) acc
            = t.foldl (step cap a) (some c, score cap a c) := by
          simp [List.foldl_cons, hstep]
        refine ⟨?_, ?_, ?_⟩
        · intro d hd hdz
          rcases List.mem_cons.1 hd with rfl | hd'
          · rw [hfold]
            rcases ihb with hlt | heq
            · exact fun hcon => slt_asymm hlt hcon
            · rw [heq]; exact slt_irrefl _
          · rw [hfold]; exact iha d hd' hdz
        · rw [hfold]
          rcases ihb with hlt | heq
          · exact Or.inl (slt_trans hlt himp)
          · rw [heq]; exact Or.inl himp
        · rw [hfold]
          rcases ihc with h | ⟨b, hb, hbz, h1, h2⟩
          · refine Or.inr ⟨c, List.mem_cons_self _ _, hz, ?_, ?_⟩
            · rw [h]
            · rw [h]
          · exact Or.inr ⟨b, List.mem_cons_of_mem _ hb, hbz, h1, h2⟩
      · have hstep : step cap a acc c = acc := by simp [step, hz, himp]
        obtain ⟨iha, ihb, ihc⟩ := ih acc
        have hfold : (c :: t).foldl (step cap a) acc = t.foldl (step cap a) acc := by
          simp [List.foldl_cons, hstep]
        refine ⟨?_, ?_, ?_⟩
        · intro d hd hdz
          rcases List.mem_cons.1 hd with rfl | hd'
          · rw [hfold]
            intro hcon
            rcases ihb with hlt | heq
            · exact himp (slt_trans hcon hlt)
            · rw [heq] at hcon; exact himp hcon
          · rw [hfold]; exact iha d hd' hdz
        · rw [hfold]; exact ihb
        · rw [hfold]
          rcases ihc with h | ⟨b, hb, hbz, h1, h2⟩
          · exact Or.inl h
          · exact Or.inr ⟨b, List.mem_cons_of_mem _ hb, hbz, h1, h2⟩

/-- Every enumerated combination respects the availability bounds and the cap. -/
theorem candidates_sound {cap : Nat} {a : Avail} {c : Combo}
    (h : c ∈ candidates cap a) :
    c.c2 ≤ a.n2 ∧ c.c5 ≤ a.n5 ∧ c.c10 ≤ a.n10 ∧ c.amount ≤ cap := by
  unfold candidates at h
  obtain ⟨c10, h10, h'⟩ := List.mem_flatMap.1 h
  obtain ⟨c5, h5, h''⟩ := List.mem_flatMap.1 h'
  obtain ⟨c2, h2, heq⟩ := List.mem_map.1 h''
  cases heq
  rw [List.mem_range] at h10 h5 h2
  have g10 : c10 ≤ a.n10 ∧ c10 * 10 ≤ cap := by
    have h10' : c10 ≤ min a.n10 (cap / 10) := by omega
    refine ⟨le_trans h10' (Nat.min_le_left _ _), ?_⟩
    have := (Nat.le_div_iff_mul_le (by norm_num : 0 < 10)).1
      (le_trans h10' (Nat.min_le_right _ _))
    omega
  have g5 : c5 ≤ a.n5 ∧ c5 * 5 ≤ cap - 10 * c10 := by
    have h5' : c5 ≤ min a.n5 ((cap - 10 * c10) / 5) := by omega
    refine ⟨le_trans h5' (Nat.min_le_left _ _), ?_⟩
    exact (Nat.le_div_iff_mul_le (by norm_num : 0 < 5)).1
      (le_trans h5' (Nat.min_le_right _ _))
  have g2 : c2 ≤ a.n2 ∧ c2 * 2 ≤ cap - 10 * c10 - 5 * c5 := by
    have h2' : c2 ≤ min a.n2 ((cap - 10 * c10 - 5 * c5) / 2) := by omega
    refine ⟨le_trans h2' (Nat.min_le_left _ _), ?_⟩
    exact (Nat.le_div_iff_mul_le (by norm_num : 0 < 2)).1
      (le_trans h2' (Nat.min_le_right _ _))
  refine ⟨g2.1, g5.1, g10.1, ?_⟩
  show 10 * c10 + 5 * c5 + 2 * c2 ≤ cap
  omega

/-- Every combination within availability whose amount does not exceed the cap is
enumerated by the triple loop. -/
theorem candidates_complete {cap : Nat} {a : Avail} {c : Combo}
    (h2 : c.c2 ≤ a.n2) (h5 : c.c5 ≤ a.n5) (h10 : c.c10 ≤ a.n10)
    (hcap : c.amount ≤ cap) : c ∈ candidates cap a := by
  obtain ⟨c10, c5, c2⟩ := c
  unfold Combo.amount at hcap
  simp only at h2 h5 h10 hcap
  unfold candidates
  refine List.mem_flatMap.2 ⟨c10, List.mem_range.2 ?_, ?_⟩
  · have : c10 ≤ cap / 10 := (Nat.le_div_iff_mul_le (by norm_num : 0 < 10)).2 (by omega)
    omega
  refine List.mem_flatMap.2 ⟨c5, List.mem_range.2 ?_, ?_⟩
  · have : c5 ≤ (cap - 10 * c10) / 5 :=
      (Nat.le_div_iff_mul_le (by norm_num : 0 < 5)).2 (by omega)
    omega
  refine List.mem_map.2 ⟨c2, List.mem_range.2 ?_, rfl⟩
  have : c2 ≤ (cap - 10 * c10 - 5 * c5) / 2 :=
    (Nat.le_div_iff_mul_le (by norm_num : 0 < 2)).2 (by omega)
  omega

/-- Arithmetic core of the greedy argument, over explicitly named intermediate
quantities. -/
theorem greedy_arith (n2 n5 n10 cap g10 r1 g5 r2 g2 : Nat)
    (e10 : g10 = min n10 (cap / 10))
    (e1 : r1 = cap - 10 * g10)
    (e5 : g5 = min n5 (r1 / 5))
    (e2 : r2 = r1 - 5 * g5)
    (eg2 : g2 = min n2 (r2 / 2))
    (hcap : cap ≤ 2 * n2 + 5 * n5 + 10 * n10)
    (c2 c5 c10 : Nat) (hb2 : c2 ≤ n2) (hb5 : c5 ≤ n5) (hb10 : c10 ≤ n10)
    (hpos : 0 < 10 * c10 + 5 * c5 + 2 * c2)
    (hle : 10 * c10 + 5 * c5 + 2 * c2 ≤ cap) :
    g2 ≤ n2 ∧ g5 ≤ n5 ∧ g10 ≤ n10 ∧ 0 < 10 * g10 + 5 * g5 + 2 * g2 ∧
      10 * g10 + 5 * g5 + 2 * g2 ≤ cap ∧ cap - (10 * g10 + 5 * g5 + 2 * g2) ≤ 9 := by
  have hm10 : 10 * g10 ≤ cap := by
    have := (Nat.le_div_iff_mul_le (by norm_num : 0 < 10)).1
      (e10 ▸ Nat.min_le_right n10 (cap / 10))
    omega
  have hm5 : 5 * g5 ≤ r1 := by
    have := (Nat.le_div_iff_mul_le (by norm_num : 0 < 5)).1
      (e5 ▸ Nat.min_le_right n5 (r1 / 5))
    omega
  have hm2 : 2 * g2 ≤ r2 := by
    have := (Nat.le_div_iff_mul_le (by norm_num : 0 < 2)).1
      (eg2 ▸ Nat.min_le_right n2 (r2 / 2))
    omega
  have hbg10 : g10 ≤ n10 := e10 ▸ Nat.min_le_left _ _
  have hbg5 : g5 ≤ n5 := e5 ▸ Nat.min_le_left _ _
  have hbg2 : g2 ≤ n2 := eg2 ▸ Nat.min_le_left _ _
  have hleft : cap - (10 * g10 + 5 * g5 + 2 * g2) ≤ 9 := by
    rcases min_choice n10 (cap / 10) with h10 | h10
    · rw [← e10] at h10
      rcases min_choice n5 (r1 / 5) with h5 | h5
      · rw [← e5] at h5
        rcases min_choice n2 (r2 / 2) with h2 | h2
        · rw [← eg2] at h2
          omega
        · rw [← eg2] at h2
          omega
      · rw [← e5] at h5
        omega
    · rw [← e10] at h10
      omega
  have hpos2 : 2 ≤ 10 * c10 + 5 * c5 + 2 * c2 := by omega
  have hgpos : 0 < 10 * g10 + 5 * g5 + 2 * g2 := by
    by_contra h0
    have hz10 : g10 = 0 := by omega
    have hz5 : g5 = 0 := by omega
    have hz2 : g2 = 0 := by omega
    rw [hz10] at e10; rw [hz5] at e5; rw [hz2] at eg2
    rcases Nat.min_eq_zero_iff.1 e10.symm with d10 | d10 <;>
      rcases Nat.min_eq_zero_iff.1 e5.symm with d5 | d5 <;>
        rcases Nat.min_eq_zero_iff.1 eg2.symm with d2 | d2 <;>
          omega
  exact ⟨hbg2, hbg5, hbg10, hgpos, by omega, hleft⟩

/-- Whenever any feasible combination exists, the greedy one is feasible and leaves
a leftover of at most 9. -/
theorem greedy_spec {cap : Nat} {a : Avail} (hcap : cap ≤ maxSpendable a)
    {c : Combo} (hc : Feasible cap a c) :
    Feasible cap a (greedy cap a) ∧ cap - (greedy cap a).amount ≤ 9 := by
  obtain ⟨hc2, hc5, hc10, hpos, hle⟩ := hc
  unfold maxSpendable at hcap
  unfold Combo.amount at hpos hle
  have h := greedy_arith a.n2 a.n5 a.n10 cap
    (min a.n10 (cap / 10))
    (cap - 10 * min a.n10 (cap / 10))
    (min a.n5 ((cap - 10 * min a.n10 (cap / 10)) / 5))
    (cap - 10 * min a.n10 (cap / 10) -
      5 * min a.n5 ((cap - 10 * min a.n10 (cap / 10)) / 5))
    (min a.n2 ((cap - 10 * min a.n10 (cap / 10) -
      5 * min a.n5 ((cap - 10 * min a.n10 (cap / 10)) / 5)) / 2))
    rfl rfl rfl rfl rfl hcap c.c2 c.c5 c.c10 hc2 hc5 hc10 hpos hle
  obtain ⟨hg2, hg5, hg10, hgpos, hgle, hgleft⟩ := h
  have hgr : greedy cap a =
      ⟨min a.n10 (cap / 10),
       min a.n5 ((cap - 10 * min a.n10 (cap / 10)) / 5),
       min a.n2 ((cap - 10 * min a.n10 (cap / 10) -
         5 * min a.n5 ((cap - 10 * min a.n10 (cap / 10)) / 5)) / 2)⟩ := rfl
  rw [hgr]
  exact ⟨⟨hg2, hg5, hg10, hgpos, hgle⟩, hgleft⟩

/-- When the search returns a combination, it was enumerated, has positive amount,
and no enumerated combination with positive amount scores strictly below it. -/
theorem selectBest_eq_some_spec {cap : Nat} {a : Avail} {b : Combo}
    (h : selectBest cap a = some b) :
    b ∈ candidates cap a ∧ b.amount ≠ 0 ∧
      ∀ c ∈ candidates cap a, c.amount ≠ 0 → ¬ slt (score cap a c) (score cap a b) := by
  obtain ⟨ha, _, hc⟩ := foldl_step_spec cap a (candidates cap a) (none, sentinel)
  unfold selectBest at h
  rcases hc with heq | ⟨b', hb'm, hb'z, h1, h2⟩
  · rw [heq] at h
    exact absurd h (by simp)
  · rw [h1] at h
    cases Option.some.inj h
    refine ⟨hb'm, hb'z, fun c hcm hcz => ?_⟩
    have := ha c hcm hcz
    rwa [h2] at this

/-- When the search returns no combination, no enumerated combination with positive
amount beats the sentinel score. -/
theorem selectBest_eq_none_spec {cap : Nat} {a : Avail}
    (h : selectBest cap a = none) :
    ∀ c ∈ candidates cap a, c.amount ≠ 0 → ¬ slt (score cap a c) sentinel := by
  obtain ⟨ha, _, hc⟩ := foldl_step_spec cap a (candidates cap a) (none, sentinel)
  unfold selectBest at h
  rcases hc with heq | ⟨b', _, _, h1, _⟩
  · intro c hcm hcz
    have := ha c hcm hcz
    rwa [heq] at this
  · rw [h1] at h
    exact absurd h (by simp)

/-- The cap never exceeds the total spendable value. -/
theorem capTarget_le (target : Int) (a : Avail) : capTarget target a ≤ maxSpendable a := by
  unfold capTarget maxSpendable
  omega

/-- A feasible combination forces the search to return a combination. -/
theorem selectBest_isSome_of_feasible {cap : Nat} {a : Avail}
    (hcap : cap ≤ maxSpendable a) (hfeas : ∃ c, Feasible cap a c) :
    ∃ b, selectBest cap a = some b := by
  obtain ⟨c, hc⟩ := hfeas
  obtain ⟨hgf, hgl⟩ := greedy_spec hcap hc
  obtain ⟨hg2, hg5, hg10, hgpos, hgle⟩ := hgf
  cases hsel : selectBest cap a with
  | some b => exact ⟨b, rfl⟩
  | none =>
    exfalso
    have hmem : greedy cap a ∈ candidates cap a :=
      candidates_complete hg2 hg5 hg10 hgle
    have := selectBest_eq_none_spec hsel (greedy cap a) hmem (by omega)
    apply this
    left
    show cap - (greedy cap a).amount < 10 ^ 9
    calc cap - (greedy cap a).amount ≤ 9 := hgl
      _ < 10 ^ 9 := by norm_num

end Balanced
namespace Balanced

/-- C2: among all combinations within availability with positive achieved amount not
exceeding the capped target, `suggest_balanced_combo` returns one that is minimal in
the lexicographic order over (leftover, total vouchers used, Euclidean distance
between the original and post-redemption share vectors). -/
theorem suggest_balanced_combo_lex_minimal (target : Int) (a : Avail)
    (hpos : 0 < target)
    (hfeas : ∃ c, Feasible (capTarget target a) a c) :
    ∃ b, suggest_balanced_combo target a = (some b, (b.amount : Int)) ∧
      Feasible (capTarget target a) a b ∧
      ∀ c, Feasible (capTarget target a) a c →
        ¬ sltR (capTarget target a - c.amount, c.numVouchers,
                 Real.sqrt ((imbalanceSq a (remainingAvail a c) : ℚ) : ℝ))
               (capTarget target a - b.amount, b.numVouchers,
                 Real.sqrt ((imbalanceSq a (remainingAvail a b) : ℚ) : ℝ)) := by
  have hng : ¬ target ≤ 0 := by omega
  obtain ⟨b, hb⟩ := selectBest_isSome_of_feasible (capTarget_le target a) hfeas
  obtain ⟨hmem, hnz, hmin⟩ := selectBest_eq_some_spec hb
  obtain ⟨hs2, hs5, hs10, hscap⟩ := candidates_sound hmem
  refine ⟨b, ?_, ⟨hs2, hs5, hs10, by omega, hscap⟩, ?_⟩
  · unfold suggest_balanced_combo
    rw [if_neg hng, hb]
  · intro c hc
    have hcm : c ∈ candidates (capTarget target a) a :=
      candidates_complete hc.1 hc.2.1 hc.2.2.1 hc.2.2.2.2
    have hns := hmin c hcm (by have := hc.2.2.2.1; omega)
    rw [sltR_iff_slt _ _ _ _ _ _ (imbalanceSq_nonneg _ _)]
    exact hns

/-- C1 (amended): whenever a combination within availability achieves a positive
amount equal to the capped target, the selector returns a combination achieving the
capped target exactly; and unconditionally any returned combination stays within
availability and never exceeds the capped target. -/
theorem suggest_balanced_combo_exact_and_bounded (target : Int) (a : Avail)
    (hpos : 0 < target) :
    ((∃ e : Combo, e.c2 ≤ a.n2 ∧ e.c5 ≤ a.n5 ∧ e.c10 ≤ a.n10 ∧
        0 < e.amount ∧ e.amount = capTarget target a) →
      ∃ b, (suggest_balanced_combo target a).1 = some b ∧
        b.amount = capTarget target a ∧
        (suggest_balanced_combo target a).2 = (capTarget target a : Int)) ∧
    (∀ b, (suggest_balanced_combo target a).1 = some b →
      b.c2 ≤ a.n2 ∧ b.c5 ≤ a.n5 ∧ b.c10 ≤ a.n10 ∧ b.amount ≤ capTarget target a) := by
  have hng : ¬ target ≤ 0 := by omega
  constructor
  · rintro ⟨e, he2, he5, he10, hepos, heq⟩
    have hef : Feasible (capTarget target a) a e := ⟨he2, he5, he10, hepos, le_of_eq heq⟩
    obtain ⟨b, hb⟩ := selectBest_isSome_of_feasible (capTarget_le target a) ⟨e, hef⟩
    obtain ⟨hmem, hnz, hmin⟩ := selectBest_eq_some_spec hb
    obtain ⟨_, _, _, hscap⟩ := candidates_sound hmem
    have hem : e ∈ candidates (capTarget target a) a :=
      candidates_complete he2 he5 he10 (le_of_eq heq)
    have hbe : b.amount = capTarget target a := by
      by_contra hne
      apply hmin e hem (by omega)
      left
      show capTarget target a - e.amount < capTarget target a - b.amount
      omega
    refine ⟨b, ?_, hbe, ?_⟩
    · unfold suggest_balanced_combo
      rw [if_neg hng, hb]
    · unfold suggest_balanced_combo
      rw [if_neg hng, hb]
      simp [hbe]
  · intro b hfst
    unfold suggest_balanced_combo at hfst
    rw [if_neg hng] at hfst
    cases hsel : selectBest (capTarget target a) a with
    | none => rw [hsel] at hfst; exact absurd hfst (by simp)
    | some b' =>
      rw [hsel] at hfst
      simp only at hfst
      cases Option.some.inj hfst
      obtain ⟨hmem, _, _⟩ := selectBest_eq_some_spec hsel
      exact candidates_sound hmem

/-- C6: when no combination within availability achieves a positive amount not
exceeding the capped target, the selector reports infeasibility as `(None, 0)`. -/
theorem suggest_balanced_combo_infeasible (target : Int) (a : Avail)
    (hpos : 0 < target)
    (hinf : ∀ c : Combo, c.c2 ≤ a.n2 → c.c5 ≤ a.n5 → c.c10 ≤ a.n10 →
      c.amount ≤ capTarget target a → c.amount = 0) :
    suggest_balanced_combo target a = (none, 0) := by
  have hng : ¬ target ≤ 0 := by omega
  unfold suggest_balanced_combo
  rw [if_neg hng]
  cases hsel : selectBest (capTarget target a) a with
  | none => rfl
  | some b =>
    exfalso
    obtain ⟨hmem, hnz, _⟩ := selectBest_eq_some_spec hsel
    obtain ⟨h2, h5, h10, hcap⟩ := candidates_sound hmem
    exact hnz (hinf b h2 h5 h10 hcap)

/-- C1 counterexample to the claim as frozen: with an empty availability map the
all-zero combination achieves the capped target (which is 0) exactly, yet the
selector returns no combination at all. -/
theorem suggest_balanced_combo_exact_claim_fails_on_empty :
    (∃ e : Combo, e.c2 ≤ (Avail.mk 0 0 0).n2 ∧ e.c5 ≤ (Avail.mk 0 0 0).n5 ∧
      e.c10 ≤ (Avail.mk 0 0 0).n10 ∧ e.amount = capTarget 5 (Avail.mk 0 0 0)) ∧
    (suggest_balanced_combo 5 (Avail.mk 0 0 0)).1 = none :=
  ⟨⟨⟨0, 0, 0⟩, by decide⟩, by decide⟩

/-- Witness: the lexicographic-minimality theorem applied at target 23 and
availability (50, 20, 30); the combination 1 of 10 dollars, 1 of 5, 4 of 2 is
feasible, so the selector returns some combination with its achieved amount. -/
theorem suggest_balanced_combo_lex_minimal_witness :
    (0 : Int) < 23 ∧
      ∃ b, suggest_balanced_combo 23 (Avail.mk 50 20 30) = (some b, (b.amount : Int)) := by
  refine ⟨by norm_num, ?_⟩
  obtain ⟨b, hb, _, _⟩ := suggest_balanced_combo_lex_minimal 23 (Avail.mk 50 20 30)
    (by norm_num) ⟨⟨1, 1, 4⟩, by decide⟩
  exact ⟨b, hb⟩

/-- Witness: the amended exactness theorem at target 23 and availability
(50, 20, 30); an exact combination exists, so the suggested amount is 23. -/
theorem suggest_balanced_combo_exact_and_bounded_witness :
    (0 : Int) < 23 ∧ (suggest_balanced_combo 23 (Avail.mk 50 20 30)).2 = 23 := by
  refine ⟨by norm_num, ?_⟩
  obtain ⟨h1, _⟩ := suggest_balanced_combo_exact_and_bounded 23 (Avail.mk 50 20 30)
    (by norm_num)
  obtain ⟨b, _, _, hamt⟩ := h1 ⟨⟨1, 1, 4⟩, by decide⟩
  have : capTarget 23 (Avail.mk 50 20 30) = 23 := by decide
  rw [this] at hamt
  exact hamt

/-- Witness: the infeasibility theorem at target 1 against availability (5, 5, 5):
no combination achieves a positive amount of at most 1 dollar using denominations
of at least 2 dollars, and the selector returns `(None, 0)`. -/
theorem suggest_balanced_combo_infeasible_witness :
    (0 : Int) < 1 ∧ suggest_balanced_combo 1 (Avail.mk 5 5 5) = (none, 0) := by
  refine ⟨by norm_num, ?_⟩
  apply suggest_balanced_combo_infeasible 1 (Avail.mk 5 5 5) (by norm_num)
  intro c h2 h5 h10 hle
  have hcap : capTarget 1 (Avail.mk 5 5 5) = 1 := by decide
  rw [hcap] at hle
  unfold Combo.amount at hle ⊢
  omega

end Balanced

namespace Cdc

/-- Voucher status: `"active"`, `"used"` or `"expired"`. -/
inductive VStatus
  | active
  | used
  | expired
deriving DecidableEq, Repr

/-- `cdc_classes.Voucher`.  Denominations are the integral values 2, 5, 10 (the
source stores them as floats); dates are embedded as `YYYYMMDD` numerals, on which
`<` agrees with the source's comparison of `"YYYY-MM-DD"` strings.  The
`voucher_code` string and the `redemption_date` are read by no modelled operation
and are not part of the state. -/
structure Voucher where
  denomination : Nat
  expiry_date : Nat
  tranche : String
  status : VStatus
deriving DecidableEq, Repr

/-- `Voucher.check_expiry`: used vouchers are untouched; anything else whose expiry
date precedes the given date becomes expired (the returned flag is the source's
return value, counted by the sweep). -/
def Voucher.check_expiry (asOf : Nat) (v : Voucher) : Voucher × Bool :=
  if v.status = .used then (v, false)
  else if v.expiry_date < asOf then ({ v with status := .expired }, true)
  else (v, false)

/-- `cdc_classes.Household`: vouchers stored by tranche, in insertion order.
Registration metadata (members, postal code, dates) is read by no modelled
operation. -/
structure Household where
  household_id : String
  vouchers : List (String × List Voucher)
deriving DecidableEq, Repr

/-- `Household.get_balance` for one denomination: the number of active vouchers of
that denomination across all tranches. -/
def Household.balance_count (h : Household) (d : Nat) : Nat :=
  (h.vouchers.flatMap (fun p => p.2)).countP
    (fun v => decide (v.status = .active) && decide (v.denomination = d))

/-- `Household.get_total_balance`: total dollar value of active vouchers, summed
over the closed denomination set 2, 5, 10 exactly as `get_balance` does. -/
def Household.get_total_balance (h : Household) : Nat :=
  2 * h.balance_count 2 + 5 * h.balance_count 5 + 10 * h.balance_count 10

/-- Expiry date per tranche: `2025-05 -> 2025-12-31`, `2026-01 -> 2026-12-31`.
The year-parsing default branch of the source is unreachable through
`CDCSystem.claim_vouchers`, whose tranche configuration holds only these two
tranches; it is embedded by its `datetime(2026, 12, 31)` fallback. -/
def expiry_for (tranche : String) : Nat :=
  if tranche = "2025-05" then 20251231
  else if tranche = "2026-01" then 20261231
  else 20261231

/-- `Household.claim_vouchers`: appends one active voucher per unit of the
distribution to the tranche's list (creating the key when absent).  There is no
already-claimed check in the source. -/
def Household.claim_vouchers (h : Household) (tranche : String)
    (denominations : List (Nat × Nat)) : Household :=
  let newVs := denominations.flatMap (fun p =>
    List.replicate p.2 ⟨p.1, expiry_for tranche, tranche, .active⟩)
  if (h.vouchers.lookup tranche).isSome then
    { h with vouchers := h.vouchers.map (fun p =>
        if p.1 = tranche then (p.1, p.2 ++ newVs) else p) }
  else
    { h with vouchers := h.vouchers ++ [(tranche, newVs)] }

/-- `CDCSystem`: households and the cached `household_balance_index`. -/
structure System where
  households : List (String × Household)
  balance_index : List (String × Nat)
deriving DecidableEq, Repr

/-- The `tranche_config` of `CDCSystem.__init__`. -/
def tranche_config : List (String × List (Nat × Nat)) :=
  [("2025-05", [(2, 50), (5, 20), (10, 30)]),
   ("2026-01", [(2, 30), (5, 12), (10, 15)])]

/-- Python dict assignment on an association list: replace in place, else append. -/
def setAssoc {α : Type} (l : List (String × α)) (k : String) (v : α) :
    List (String × α) :=
  if (l.lookup k).isSome then
    l.map (fun p => if p.1 = k then (k, v) else p)
  else l ++ [(k, v)]

/-- `CDCSystem.register_household`: fresh household with no vouchers, cached
balance 0. -/
def register_household (s : System) (hid : String) : System :=
  { households := setAssoc s.households hid ⟨hid, []⟩,
    balance_index := setAssoc s.balance_index hid 0 }

/-- `CDCSystem.claim_vouchers`: fails on unknown household or tranche; otherwise
claims the tranche bundle (again, even if already claimed) and refreshes the cached
balance from the household. -/
def claim_vouchers (s : System) (hid tranche : String) : Bool × System :=
  match s.households.lookup hid with
  | none => (false, s)
  | some h =>
    match tranche_config.lookup tranche with
    | none => (false, s)
    | some cfg =>
      let h' := h.claim_vouchers tranche cfg
      (true,
       { households := setAssoc s.households hid h',
         balance_index := setAssoc s.balance_index hid h'.get_total_balance })

/-- `CDCSystem.refresh_vouchers_status` (the expiry sweep): applies `check_expiry`
to every voucher of every household.  The cached `household_balance_index` is not
touched by the source. -/
def refresh_vouchers_status (s : System) (asOf : Nat) : System :=
  { s with households := s.households.map (fun p =>
      (p.1, { p.2 with vouchers := p.2.vouchers.map (fun q =>
        (q.1, q.2.map (fun v => (v.check_expiry asOf).1))) })) }

/-- `CDCSystem.get_household_balance`: `None` for an unknown household, otherwise
the cached total together with the recomputed per-denomination breakdown. -/
def get_household_balance (s : System) (hid : String) :
    Option (Nat × (Nat × Nat × Nat)) :=
  match s.households.lookup hid with
  | none => none
  | some h =>
    some ((s.balance_index.lookup hid).getD 0,
      (h.balance_count 2, h.balance_count 5, h.balance_count 10))

/-- Trace for the broken cache: register, claim the 2025-05 tranche (which expires
2025-12-31), then sweep as of 2026-01-01. -/
def sweepTrace : System :=
  refresh_vouchers_status
    ((claim_vouchers (register_household ⟨[], []⟩ "H1") "H1" "2025-05").2)
    20260101

end Cdc

namespace Cdc

/-- C3: the claim states that at every reachable state the cached aggregate balance
equals the sum of denominations of the household's active vouchers.  On the trace
register, claim tranche 2025-05, sweep as of 2026-01-01 the sweep expires all 100
vouchers but leaves the cached index at 500, so `get_household_balance` reports a
total of 500 against an all-zero active breakdown: the code does not maintain the
invariant through the expiry sweep. -/
theorem cdc_sweep_breaks_balance_cache :
    Cdc.sweepTrace.balance_index.lookup "H1" = some 500 ∧
    (Cdc.sweepTrace.households.lookup "H1").map Cdc.Household.get_total_balance
      = some 0 ∧
    Cdc.get_household_balance Cdc.sweepTrace "H1" = some (500, (0, 0, 0)) := by
  set_option maxRecDepth 200000 in decide

/-- C4 counterexample: in `cdc_classes.CDCSystem.claim_vouchers` a second claim of
the same tranche by the same registered household succeeds again (returns `True`)
and issues a second bundle, doubling the cached balance to 1000, instead of
failing with a tranche-already-claimed error and leaving state unchanged. -/
theorem cdc_double_claim_succeeds :
    (Cdc.claim_vouchers
      ((Cdc.claim_vouchers (Cdc.register_household ⟨[], []⟩ "H1") "H1" "2025-05").2)
      "H1" "2025-05").1 = true ∧
    ((Cdc.claim_vouchers
      ((Cdc.claim_vouchers (Cdc.register_household ⟨[], []⟩ "H1") "H1" "2025-05").2)
      "H1" "2025-05").2.balance_index.lookup "H1") = some 1000 := by
  set_option maxRecDepth 200000 in decide

end Cdc
/-- A calendar timestamp; the source carries these as ISO strings and formats the
bucket key with `strftime`. -/
structure DateTime6 where
  year : Nat
  month : Nat
  day : Nat
  hour : Nat
  minute : Nat
  second : Nat
deriving DecidableEq, Repr

/-- The `YYYYMMDDHH` bucket key of a timestamp, as a numeral. -/
def hourKey (t : DateTime6) : Nat :=
  ((t.year * 100 + t.month) * 100 + t.day) * 100 + t.hour

namespace App

/-- `app.Household`: per-denomination balance counters and the claimed-tranche
list.  Registration metadata (name, nric, email, ...) is read by no modelled
operation. -/
structure Household where
  claimed_tranches : List String
  balance_2 : Nat
  balance_5 : Nat
  balance_10 : Nat
deriving DecidableEq, Repr

/-- Total dollar value of a household's balances. -/
def Household.total (h : Household) : Nat :=
  2 * h.balance_2 + 5 * h.balance_5 + 10 * h.balance_10

/-- `app.InMemoryStore`: the `households` dict as a lookup function and the
`merchants` dict as an existence predicate (redemption only membership-checks it). -/
structure Store where
  households : String → Option Household
  merchants : String → Bool

/-- `InMemoryStore.get_household_balance`: an unknown household id yields the
all-zero breakdown `{"2": 0, "5": 0, "10": 0}`; a known one its counters. -/
def get_household_balance (s : Store) (hid : String) : Nat × Nat × Nat :=
  match s.households hid with
  | none => (0, 0, 0)
  | some h => (h.balance_2, h.balance_5, h.balance_10)

/-- Result of `InMemoryStore.add_vouchers` (the `{"error": ...}` dicts and the
issued-bundle dict of the source). -/
inductive ClaimOutcome
  | householdNotFound
  | alreadyClaimed
  | invalidTranche
  | issued (added_2 added_5 added_10 total_value : Nat)
deriving DecidableEq, Repr

/-- The tranche table of `add_vouchers`: `T1` (May 2025) -> 50/20/30, `T2`
(Jan 2026) -> 30/12/18, anything else is an invalid tranche id. -/
def tranche_bundle (tid : String) : Option (Nat × Nat × Nat) :=
  if tid = "T1" then some (50, 20, 30)
  else if tid = "T2" then some (30, 12, 18)
  else none

/-- `InMemoryStore.add_vouchers`: check household, then the already-claimed guard,
then the tranche table; on success increment the balances, append the tranche id
to the claimed list, and report the bundle. -/
def add_vouchers (s : Store) (hid tid : String) : ClaimOutcome × Store :=
  match s.households hid with
  | none => (.householdNotFound, s)
  | some h =>
    if tid ∈ h.claimed_tranches then (.alreadyClaimed, s)
    else
      match tranche_bundle tid with
      | none => (.invalidTranche, s)
      | some (a2, a5, a10) =>
        let h' : Household :=
          { claimed_tranches := h.claimed_tranches ++ [tid],
            balance_2 := h.balance_2 + a2,
            balance_5 := h.balance_5 + a5,
            balance_10 := h.balance_10 + a10 }
        (.issued a2 a5 a10 (a2 * 2 + a5 * 5 + a10 * 10),
         { s with households := fun k => if k = hid then some h' else s.households k })

/-- `app.Transaction` as built by `redeem_vouchers`; `voucher_details` keeps the
denomination of each generated per-voucher row, in generation order (all 2s, then
5s, then 10s).  The UUID-based voucher codes are read only for display. -/
structure Transaction where
  household_id : String
  merchant_id : String
  amount : Nat
  txTime : DateTime6
  vouchers_2 : Nat
  vouchers_5 : Nat
  vouchers_10 : Nat
  voucher_details : List Nat
  payment_status : String
deriving DecidableEq, Repr

/-- One row of the hourly CSV (`_append_to_hourly_csv`): the fields the audit rule
constrains.  `amount` is the "Individual voucher amount" column, which the source
fills with the voucher's denomination. -/
structure AuditRow where
  denomination : Nat
  amount : Nat
  remarks : String
deriving DecidableEq, Repr

/-- `InMemoryStore._append_to_hourly_csv`: one row per voucher of the transaction,
enumerated from 1 across the whole transaction; the last row of the transaction
carries "Final denomination used", every other row its sequence number. -/
def append_to_hourly_rows (t : Transaction) : List AuditRow :=
  let total := t.voucher_details.length
  t.voucher_details.enum.map (fun p =>
    { denomination := p.2, amount := p.2,
      remarks := if p.1 + 1 = total then "Final denomination used"
                 else toString (p.1 + 1) })

/-- Result of `InMemoryStore.redeem_vouchers`. -/
inductive RedeemOutcome
  | householdNotFound
  | merchantNotFound
  | insufficientBalance
  | ok (t : Transaction)
deriving DecidableEq, Repr

/-- Projection of a redemption outcome to its committed transaction. -/
def txOf : RedeemOutcome → Option Transaction
  | .ok t => some t
  | _ => none

/-- `InMemoryStore.redeem_vouchers` in fixed-count mode: household and merchant
checks, the three-way balance sufficiency check (error with no state change),
then exact decrement of the balances and construction of the transaction with its
per-voucher details. -/
def redeem_vouchers (s : Store) (now : DateTime6) (hid mid : String)
    (v2 v5 v10 : Nat) : RedeemOutcome × Store :=
  match s.households hid with
  | none => (.householdNotFound, s)
  | some h =>
    if s.merchants mid = false then (.merchantNotFound, s)
    else if h.balance_2 < v2 ∨ h.balance_5 < v5 ∨ h.balance_10 < v10 then
      (.insufficientBalance, s)
    else
      let amount := v2 * 2 + v5 * 5 + v10 * 10
      let details := List.replicate v2 2 ++ List.replicate v5 5 ++ List.replicate v10 10
      let h' : Household :=
        { claimed_tranches := h.claimed_tranches,
          balance_2 := h.balance_2 - v2,
          balance_5 := h.balance_5 - v5,
          balance_10 := h.balance_10 - v10 }
      (.ok ⟨hid, mid, amount, now, v2, v5, v10, details, "Completed"⟩,
       { s with households := fun k => if k = hid then some h' else s.households k })

/-- The empty store. -/
def emptyStore : Store := ⟨fun _ => none, fun _ => false⟩

/-- A store holding one freshly registered household `H1`. -/
def storeH1 : Store :=
  ⟨fun k => if k = "H1" then some ⟨[], 0, 0, 0⟩ else none, fun _ => false⟩

/-- A store holding household `H1` with balances (2, 1, 0) and merchant `M1`. -/
def storeB : Store :=
  ⟨fun k => if k = "H1" then some ⟨["T1"], 2, 1, 0⟩ else none, fun m => m = "M1"⟩

/-- A fixed transaction time used by concrete evaluations. -/
def now0 : DateTime6 := ⟨2025, 7, 1, 10, 30, 0⟩

end App
namespace App

/-- C10: querying the balance of a never-registered household id returns the
all-zero per-denomination breakdown, exactly what a registered household with no
vouchers gets, rather than an error. -/
theorem app_unknown_household_zero_balance :
    (∀ (s : Store) (hid : String), s.households hid = none →
      get_household_balance s hid = (0, 0, 0)) ∧
    (∀ (s : Store) (hid : String) (h : Household), s.households hid = some h →
      h.balance_2 = 0 → h.balance_5 = 0 → h.balance_10 = 0 →
      get_household_balance s hid = (0, 0, 0)) := by
  constructor
  · intro s hid hnone
    unfold get_household_balance
    rw [hnone]
  · intro s hid h hsome h2 h5 h10
    unfold get_household_balance
    rw [hsome]
    simp [h2, h5, h10]

/-- Witness: the unknown-household branch evaluated on the empty store. -/
theorem app_unknown_household_zero_balance_witness :
    get_household_balance emptyStore "H9" = (0, 0, 0) :=
  app_unknown_household_zero_balance.1 emptyStore "H9" rfl

/-- C4: for a registered household and a known tranche id not yet claimed, the
first claim succeeds and issues exactly the tranche's bundle (raising the balance
by its face value), and a second claim of the same tranche returns the
tranche-already-claimed error with the store left exactly as after the first
claim, so the balance reflects only the first claim. -/
theorem app_claim_idempotent :
    ∀ (s : Store) (hid tid : String) (h : Household) (a2 a5 a10 : Nat),
      s.households hid = some h →
      tranche_bundle tid = some (a2, a5, a10) →
      tid ∉ h.claimed_tranches →
      (add_vouchers s hid tid).1 = .issued a2 a5 a10 (a2 * 2 + a5 * 5 + a10 * 10) ∧
      (∃ h1, (add_vouchers s hid tid).2.households hid = some h1 ∧
        h1.total = h.total + (2 * a2 + 5 * a5 + 10 * a10) ∧
        tid ∈ h1.claimed_tranches) ∧
      add_vouchers (add_vouchers s hid tid).2 hid tid
        = (.alreadyClaimed, (add_vouchers s hid tid).2) := by
  intro s hid tid h a2 a5 a10 hsome hb hnew
  have hstep : add_vouchers s hid tid =
      (.issued a2 a5 a10 (a2 * 2 + a5 * 5 + a10 * 10),
       { s with households := fun k =>
          if k = hid then
            some ⟨h.claimed_tranches ++ [tid], h.balance_2 + a2,
                  h.balance_5 + a5, h.balance_10 + a10⟩
          else s.households k }) := by
    unfold add_vouchers
    rw [hsome]
    simp only [if_neg hnew, hb]
  rw [hstep]
  refine ⟨rfl,
    ⟨⟨h.claimed_tranches ++ [tid], h.balance_2 + a2, h.balance_5 + a5,
       h.balance_10 + a10⟩, ?_, ?_, ?_⟩, ?_⟩
  · simp
  · unfold Household.total
    simp only
    ring
  · simp
  · unfold add_vouchers
    simp only [if_pos rfl]
    simp

end App
namespace App

/-- Witness: the idempotent-claim theorem applied to a fresh household and tranche
`T1`: the first claim issues the 50/20/30 bundle worth 500 dollars. -/
theorem app_claim_idempotent_witness :
    storeH1.households "H1" = some ⟨[], 0, 0, 0⟩ ∧
    tranche_bundle "T1" = some (50, 20, 30) ∧
    (add_vouchers storeH1 "H1" "T1").1 = .issued 50 20 30 500 := by
  refine ⟨rfl, rfl, ?_⟩
  have h := app_claim_idempotent storeH1 "H1" "T1" ⟨[], 0, 0, 0⟩ 50 20 30 rfl rfl
    (by simp)
  simpa using h.1

/-- C5 (amended, the half that holds): for `app.py`'s fixed-count redemption,
every successful commit has `amount` equal to the requested denomination sum,
equal to the sum of denominations of the consumed voucher details, and the
household's new total balance plus the amount gives back the old total. -/
theorem app_redeem_conservation :
    ∀ (s : Store) (now : DateTime6) (hid mid : String) (v2 v5 v10 : Nat)
      (h : Household),
      s.households hid = some h →
      s.merchants mid = true →
      v2 ≤ h.balance_2 → v5 ≤ h.balance_5 → v10 ≤ h.balance_10 →
      ∃ t : Transaction,
        (redeem_vouchers s now hid mid v2 v5 v10).1 = .ok t ∧
        t.amount = 2 * v2 + 5 * v5 + 10 * v10 ∧
        t.amount = t.voucher_details.sum ∧
        ∃ h1, (redeem_vouchers s now hid mid v2 v5 v10).2.households hid = some h1 ∧
          h1.total + t.amount = h.total := by
  intro s now hid mid v2 v5 v10 h hsome hm h2 h5 h10
  have hstep : redeem_vouchers s now hid mid v2 v5 v10 =
      (.ok ⟨hid, mid, v2 * 2 + v5 * 5 + v10 * 10, now, v2, v5, v10,
        List.replicate v2 2 ++ List.replicate v5 5 ++ List.replicate v10 10,
        "Completed"⟩,
       { s with households := fun k =>
          if k = hid then
            some ⟨h.claimed_tranches, h.balance_2 - v2, h.balance_5 - v5,
                  h.balance_10 - v10⟩
          else s.households k }) := by
    unfold redeem_vouchers
    rw [hsome]
    simp only [if_neg (show ¬ s.merchants mid = false by simp [hm]),
      if_neg (show ¬ (h.balance_2 < v2 ∨ h.balance_5 < v5 ∨ h.balance_10 < v10) by omega)]
  rw [hstep]
  refine ⟨_, rfl, by ring, ?_, ?_⟩
  · show v2 * 2 + v5 * 5 + v10 * 10 =
      (List.replicate v2 2 ++ List.replicate v5 5 ++ List.replicate v10 10).sum
    simp only [List.sum_append, List.sum_replicate, smul_eq_mul]
  · refine ⟨⟨h.claimed_tranches, h.balance_2 - v2, h.balance_5 - v5,
      h.balance_10 - v10⟩, by simp, ?_⟩
    unfold Household.total
    simp only
    omega

/-- Witness: conservation on a concrete store: household `H1` with balances
(2, 1, 0) redeems 2 two-dollar and 1 five-dollar voucher at merchant `M1`. -/
theorem app_redeem_conservation_witness :
    storeB.households "H1" = some ⟨["T1"], 2, 1, 0⟩ ∧
    storeB.merchants "M1" = true ∧
    ∃ t : Transaction,
      (redeem_vouchers storeB now0 "H1" "M1" 2 1 0).1 = .ok t ∧
      t.amount = 2 * 2 + 5 * 1 + 10 * 0 := by
  refine ⟨rfl, rfl, ?_⟩
  obtain ⟨t, hok, hamt, _, _⟩ := app_redeem_conservation storeB now0 "H1" "M1" 2 1 0
    ⟨["T1"], 2, 1, 0⟩ rfl rfl (by norm_num) (by norm_num) (by norm_num)
  exact ⟨t, hok, hamt⟩

/-- C8 (amended, the half that holds): `app.py`'s fixed-count redemption fails
with the insufficient-balance error and no state change whenever any requested
count exceeds the balance of its denomination, and otherwise consumes exactly the
requested number of vouchers of each denomination. -/
theorem app_fixed_count_redeem :
    ∀ (s : Store) (now : DateTime6) (hid mid : String) (v2 v5 v10 : Nat)
      (h : Household),
      s.households hid = some h →
      s.merchants mid = true →
      ((h.balance_2 < v2 ∨ h.balance_5 < v5 ∨ h.balance_10 < v10) →
        redeem_vouchers s now hid mid v2 v5 v10 = (.insufficientBalance, s)) ∧
      (v2 ≤ h.balance_2 → v5 ≤ h.balance_5 → v10 ≤ h.balance_10 →
        ∃ t : Transaction,
          (redeem_vouchers s now hid mid v2 v5 v10).1 = .ok t ∧
          t.voucher_details.count 2 = v2 ∧
          t.voucher_details.count 5 = v5 ∧
          t.voucher_details.count 10 = v10 ∧
          ∃ h1, (redeem_vouchers s now hid mid v2 v5 v10).2.households hid = some h1 ∧
            h1.balance_2 = h.balance_2 - v2 ∧ h1.balance_5 = h.balance_5 - v5 ∧
            h1.balance_10 = h.balance_10 - v10) := by
  intro s now hid mid v2 v5 v10 h hsome hm
  constructor
  · intro hover
    unfold redeem_vouchers
    rw [hsome]
    simp only [if_neg (show ¬ s.merchants mid = false by simp [hm]), if_pos hover]
  · intro h2 h5 h10
    have hstep : redeem_vouchers s now hid mid v2 v5 v10 =
        (.ok ⟨hid, mid, v2 * 2 + v5 * 5 + v10 * 10, now, v2, v5, v10,
          List.replicate v2 2 ++ List.replicate v5 5 ++ List.replicate v10 10,
          "Completed"⟩,
         { s with households := fun k =>
            if k = hid then
              some ⟨h.claimed_tranches, h.balance_2 - v2, h.balance_5 - v5,
                    h.balance_10 - v10⟩
            else s.households k }) := by
      unfold redeem_vouchers
      rw [hsome]
      simp only [if_neg (show ¬ s.merchants mid = false by simp [hm]),
        if_neg (show ¬ (h.balance_2 < v2 ∨ h.balance_5 < v5 ∨ h.balance_10 < v10) by omega)]
    rw [hstep]
    refine ⟨_, rfl, ?_, ?_, ?_, ?_⟩
    · show (List.replicate v2 2 ++ List.replicate v5 5 ++ List.replicate v10 10).count 2 = v2
      simp [List.count_append, List.count_replicate]
    · show (List.replicate v2 2 ++ List.replicate v5 5 ++ List.replicate v10 10).count 5 = v5
      simp [List.count_append, List.count_replicate]
    · show (List.replicate v2 2 ++ List.replicate v5 5 ++ List.replicate v10 10).count 10 = v10
      simp [List.count_append, List.count_replicate]
    · exact ⟨⟨h.claimed_tranches, h.balance_2 - v2, h.balance_5 - v5,
        h.balance_10 - v10⟩, by simp, rfl, rfl, rfl⟩

/-- Witness: requesting 5 two-dollar vouchers against a balance of 2 fails with
the insufficient-balance error and leaves the store untouched. -/
theorem app_fixed_count_redeem_witness :
    storeB.households "H1" = some ⟨["T1"], 2, 1, 0⟩ ∧
    storeB.merchants "M1" = true ∧
    redeem_vouchers storeB now0 "H1" "M1" 5 0 0 = (.insufficientBalance, storeB) := by
  refine ⟨rfl, rfl, ?_⟩
  exact (app_fixed_count_redeem storeB now0 "H1" "M1" 5 0 0 ⟨["T1"], 2, 1, 0⟩ rfl
    rfl).1 (by norm_num)

/-- C7 counterexample: a committed `app.py` redemption of 2 two-dollar and 1
five-dollar voucher produces hourly rows whose remarks run 1, 2 across the whole
transaction with a single final marker on the last row: the two-dollar group of
size 2 gets remarks "1" and "2" and no "Final denomination used" row, violating
the per-denomination-group sequencing rule. -/
theorem app_hourly_remarks_not_per_denomination_group :
    ((txOf (redeem_vouchers storeB now0 "H1" "M1" 2 1 0).1).map
        (fun t => ((append_to_hourly_rows t).filter
          (fun r => r.denomination == 2)).map (fun r => r.remarks)))
      = some ["1", "2"] ∧
    ((txOf (redeem_vouchers storeB now0 "H1" "M1" 2 1 0).1).map
        (fun t => ((append_to_hourly_rows t).filter
          (fun r => r.denomination == 2)).map (fun r => r.remarks)
          |>.contains "Final denomination used"))
      = some false ∧
    ((txOf (redeem_vouchers storeB now0 "H1" "M1" 2 1 0).1).map
        (fun t => (append_to_hourly_rows t).map (fun r => r.remarks)))
      = some ["1", "2", "Final denomination used"] := by
  refine ⟨?_, ?_, ?_⟩ <;> decide

end App
namespace Services

/-- `services.Voucher`: id and denomination (the other fields are read by no
modelled operation). -/
structure Voucher where
  voucher_id : String
  denomination : Nat
deriving DecidableEq, Repr

/-- The fields of `services.Transaction` that `redeem` reads. -/
structure TxMeta where
  transaction_id : String
  household_id : String
  merchant_id : String
  txTime : DateTime6
deriving DecidableEq, Repr

/-- One output CSV row of `services.redeem`.  `denomination_used` and
`amount_redeemed` appear currency-formatted in the file; the numerals are kept. -/
structure AuditRow where
  transaction_id : String
  household_id : String
  merchant_id : String
  voucher_id : String
  denomination_used : Nat
  amount_redeemed : Nat
  remarks : String
deriving DecidableEq, Repr

/-- `dict.setdefault(key, []).append(v)` on an association list: append to the
existing group, else add a new group at the end. -/
def addToGroup (gs : List (Nat × List Voucher)) (v : Voucher) :
    List (Nat × List Voucher) :=
  if (gs.lookup v.denomination).isSome then
    gs.map (fun p => if p.1 = v.denomination then (p.1, p.2 ++ [v]) else p)
  else gs ++ [(v.denomination, [v])]

/-- The `by_denom` dict of the fixed-count branch: seeded with keys 2, 5, 10,
then every bucket voucher appended to its denomination's list. -/
def by_denom (bucket : List Voucher) : List (Nat × List Voucher) :=
  bucket.foldl addToGroup [(2, []), (5, []), (10, [])]

/-- The fixed-count selection: for each requested `(denomination, count)` extend
`to_redeem` with the first `count` vouchers of that denomination — with no
availability check, fewer are taken silently when fewer exist. -/
def selectByCounts (bucket : List Voucher) (reqs : List (Nat × Nat)) :
    List Voucher :=
  reqs.foldl (fun acc r => acc ++ (((by_denom bucket).lookup r.1).getD []).take r.2) []

/-- The `selected_by_denom` grouping of the vouchers being redeemed (plain dict,
keys in first-appearance order). -/
def selected_by_denom (to_redeem : List Voucher) : List (Nat × List Voucher) :=
  to_redeem.foldl addToGroup []

/-- Stable insertion of a group into a list sorted by descending key. -/
def insertDesc (g : Nat × List Voucher) :
    List (Nat × List Voucher) → List (Nat × List Voucher)
  | [] => [g]
  | h :: t => if h.1 < g.1 then g :: h :: t else h :: insertDesc g t

/-- `sorted(selected_by_denom.items(), key=denomination, reverse=True)`. -/
def sortDesc (l : List (Nat × List Voucher)) : List (Nat × List Voucher) :=
  l.foldr insertDesc []

/-- The rows emitted for one denomination group: one row per voucher, enumerated
from 1; rows before the last carry their sequence number, the last carries
"Final denomination used"; `amount_redeemed` is denomination times group size on
every row of the group. -/
def group_rows (tx : TxMeta) (d : Nat) (vs : List Voucher) : List AuditRow :=
  let count := vs.length
  vs.enum.map (fun p =>
    { transaction_id := tx.transaction_id,
      household_id := tx.household_id,
      merchant_id := tx.merchant_id,
      voucher_id := p.2.voucher_id,
      denomination_used := d,
      amount_redeemed := d * count,
      remarks := if p.1 + 1 < count then toString (p.1 + 1)
                 else "Final denomination used" })

/-- All rows of one transaction: groups sorted by descending denomination, each
contributing its `group_rows` segment. -/
def redeem_rows (tx : TxMeta) (to_redeem : List Voucher) : List AuditRow :=
  (sortDesc (selected_by_denom to_redeem)).flatMap (fun p => group_rows tx p.1 p.2)

/-- `services.store`: the per-household voucher buckets (the only state `redeem`
mutates that the claims constrain). -/
structure Store where
  vouchers_by_household : List (String × List Voucher)
deriving DecidableEq, Repr

/-- What `services.redeem` returns and records: the rows, `rows_written`, and the
`YYYYMMDDHH` key of the output file, derived from the transaction timestamp. -/
structure RedeemResult where
  rows : List AuditRow
  rows_written : Nat
  fileKey : Nat
deriving DecidableEq, Repr

/-- `services.redeem` in fixed-count mode: select vouchers per requested counts
(no availability check), emit the grouped rows, remove the redeemed vouchers from
the household bucket (only when rows exist), and append to the file keyed by the
hour of `tx.datetime_iso`. -/
def redeem (st : Store) (tx : TxMeta) (reqs : List (Nat × Nat)) :
    RedeemResult × Store :=
  let bucket := (st.vouchers_by_household.lookup tx.household_id).getD []
  let to_redeem := selectByCounts bucket reqs
  let rows := redeem_rows tx to_redeem
  let redeem_ids := rows.map (fun r => r.voucher_id)
  let st' :=
    if rows.isEmpty then st
    else
      { vouchers_by_household := st.vouchers_by_household.map (fun p =>
          if p.1 = tx.household_id then
            (p.1, p.2.filter (fun v => !(redeem_ids.contains v.voucher_id)))
          else p) }
  (⟨rows, rows.length, hourKey tx.txTime⟩, st')

end Services
namespace Services

/-- The remark of row `i` (0-based) in a group of `n` rows, as a function of the
index alone. -/
def remark_at (n i : Nat) : String :=
  if i + 1 < n then toString (i + 1) else "Final denomination used"

/-- Enumerated remarks over a group of size `n ≥ 1`: the numbers 1 to `n - 1` in
order, then the final marker. -/
theorem range_remarks (n : Nat) (hn : n ≠ 0) :
    (List.range n).map (remark_at n)
      = ((List.range (n - 1)).map (fun i => toString (i + 1)))
        ++ ["Final denomination used"] := by
  obtain ⟨m, rfl⟩ : ∃ m, n = m + 1 := ⟨n - 1, by omega⟩
  rw [List.range_succ, List.map_append]
  simp only [Nat.add_sub_cancel]
  congr 1
  · apply List.map_congr_left
    intro i hi
    rw [List.mem_range] at hi
    unfold remark_at
    rw [if_pos (by omega)]
  · simp [remark_at]

/-- The remarks of a group's rows follow `remark_at` over the indices. -/
theorem group_rows_remarks (tx : TxMeta) (d : Nat) (vs : List Voucher) :
    (group_rows tx d vs).map (fun r => r.remarks)
      = (List.range vs.length).map (remark_at vs.length) := by
  unfold group_rows remark_at
  simp only [List.map_map]
  have : ((fun r : AuditRow => r.remarks) ∘
      (fun p : Nat × Voucher =>
        ({ transaction_id := tx.transaction_id,
           household_id := tx.household_id,
           merchant_id := tx.merchant_id,
           voucher_id := p.2.voucher_id,
           denomination_used := d,
           amount_redeemed := d * vs.length,
           remarks := if p.1 + 1 < vs.length then toString (p.1 + 1)
                      else "Final denomination used" } : AuditRow)))
      = (fun p : Nat × Voucher =>
          if p.1 + 1 < vs.length then toString (p.1 + 1)
          else "Final denomination used") := rfl
  rw [this]
  have h2 : (fun p : Nat × Voucher =>
      if p.1 + 1 < vs.length then toString (p.1 + 1) else "Final denomination used")
      = (fun i : Nat =>
          if i + 1 < vs.length then toString (i + 1) else "Final denomination used")
        ∘ Prod.fst := rfl
  rw [h2, ← List.map_map, List.enum_map_fst]

/-- C7 (amended, the implementation that satisfies the rule): in `services.redeem`
the audit rows are emitted group by group (denominations descending), and every
group of `N ≥ 1` vouchers contributes exactly `N` rows whose remarks are
"1", ..., "N-1" in order followed by a single "Final denomination used" on the
last row. -/
theorem services_redeem_rows_group_remarks :
    ∀ (tx : TxMeta) (to_redeem : List Voucher),
      redeem_rows tx to_redeem =
        (sortDesc (selected_by_denom to_redeem)).flatMap
          (fun p => group_rows tx p.1 p.2) ∧
      ∀ d vs, (d, vs) ∈ sortDesc (selected_by_denom to_redeem) → vs ≠ [] →
        (group_rows tx d vs).length = vs.length ∧
        (group_rows tx d vs).map (fun r => r.remarks)
          = ((List.range (vs.length - 1)).map (fun i => toString (i + 1)))
            ++ ["Final denomination used"] := by
  intro tx to_redeem
  refine ⟨rfl, ?_⟩
  intro d vs _ hne
  constructor
  · unfold group_rows
    simp
  · rw [group_rows_remarks, range_remarks vs.length (by simpa using hne)]

/-- Witness: a transaction redeeming two five-dollar vouchers; the single group
has remarks "1" then "Final denomination used". -/
theorem services_redeem_rows_group_remarks_witness :
    ((5, [Voucher.mk "V1" 5, Voucher.mk "V2" 5]) ∈
      sortDesc (selected_by_denom [Voucher.mk "V1" 5, Voucher.mk "V2" 5])) ∧
    (group_rows ⟨"TX1", "H1", "M1", ⟨2025, 7, 1, 10, 30, 0⟩⟩ 5
        [Voucher.mk "V1" 5, Voucher.mk "V2" 5]).map (fun r => r.remarks)
      = ["1", "Final denomination used"] := by
  constructor
  · decide
  · have h := (services_redeem_rows_group_remarks
      ⟨"TX1", "H1", "M1", ⟨2025, 7, 1, 10, 30, 0⟩⟩
      [Voucher.mk "V1" 5, Voucher.mk "V2" 5]).2 5
      [Voucher.mk "V1" 5, Voucher.mk "V2" 5] (by decide) (by decide)
    rw [h.2]
    decide

/-- C8 counterexample: `services.redeem` with a requested count exceeding
availability (3 two-dollar vouchers against a bucket holding 1) does not fail
with an insufficient-balance error: it silently redeems the single available
voucher (one row written) and removes it from the household bucket. -/
theorem services_fixed_count_over_request_truncates :
    (redeem ⟨[("H1", [Voucher.mk "V1" 2])]⟩
        ⟨"TX1", "H1", "M1", ⟨2025, 7, 1, 10, 30, 0⟩⟩ [(2, 3)]).1.rows_written = 1 ∧
    ((redeem ⟨[("H1", [Voucher.mk "V1" 2])]⟩
        ⟨"TX1", "H1", "M1", ⟨2025, 7, 1, 10, 30, 0⟩⟩
        [(2, 3)]).2.vouchers_by_household.lookup "H1") = some [] ∧
    (([("H1", [Voucher.mk "V1" 2])] : List (String × List Voucher)).lookup "H1")
      = some [Voucher.mk "V1" 2] := by
  refine ⟨?_, ?_, ?_⟩ <;> decide

end Services
namespace NewServices

/-- `new_data_structure.Voucher`: id and denomination (tranche and the redemption
flags are read by no modelled operation beyond removal from the index). -/
structure Voucher where
  voucher_id : String
  denomination : Nat
deriving DecidableEq, Repr

/-- `new_data_structure.HouseholdIndex`: per household the three per-denomination
voucher lists and the cached per-denomination counts, plus the global voucher map. -/
structure Index where
  household_vouchers : List (String × (List Voucher × List Voucher × List Voucher))
  household_balances : List (String × (Nat × Nat × Nat))
  voucher_map : List (String × Voucher)
deriving DecidableEq, Repr

/-- `HouseholdIndex.get_household_balance`: the cached counts, all-zero for an
unknown household. -/
def get_household_balance (idx : Index) (hid : String) : Nat × Nat × Nat :=
  (idx.household_balances.lookup hid).getD (0, 0, 0)

/-- `HouseholdIndex.find_vouchers_for_redemption`: greedy largest-first over the
denominations 10, 5, 2; for each, take `min(available, remaining // denom)`
vouchers from the front of the list. -/
def find_vouchers_for_redemption (idx : Index) (hid : String) (amount : Nat) :
    List Voucher :=
  let avail := (idx.household_vouchers.lookup hid).getD ([], [], [])
  let l2 := avail.1
  let l5 := avail.2.1
  let l10 := avail.2.2
  let c10 := min l10.length (amount / 10)
  let r1 := amount - c10 * 10
  let c5 := min l5.length (r1 / 5)
  let r2 := r1 - c5 * 5
  let c2 := min l2.length (r2 / 2)
  l10.take c10 ++ l5.take c5 ++ l2.take c2

/-- `HouseholdIndex.get_voucher_household`: first household whose lists hold the
voucher id. -/
def get_voucher_household (idx : Index) (vid : String) : Option String :=
  (idx.household_vouchers.find? (fun p =>
    (p.2.1 ++ p.2.2.1 ++ p.2.2.2).any (fun v => v.voucher_id == vid))).map (fun p => p.1)

/-- Remove the first voucher with the given id from a list. -/
def removeFirst (vs : List Voucher) (vid : String) : List Voucher :=
  match vs with
  | [] => []
  | v :: t => if v.voucher_id = vid then t else v :: removeFirst t vid

/-- `HouseholdIndex.remove_voucher`: drop the voucher from its owner's list of its
denomination, decrement that cached count (floored at 0), and delete it from the
voucher map. -/
def remove_voucher (idx : Index) (vid : String) : Index :=
  match idx.voucher_map.lookup vid with
  | none => idx
  | some v =>
    match get_voucher_household idx vid with
    | none =>
      { idx with voucher_map := idx.voucher_map.filter (fun p => !(p.1 == vid)) }
    | some hid =>
      { household_vouchers := idx.household_vouchers.map (fun p =>
          if p.1 = hid then
            (p.1,
             if v.denomination = 2 then (removeFirst p.2.1 vid, p.2.2.1, p.2.2.2)
             else if v.denomination = 5 then (p.2.1, removeFirst p.2.2.1 vid, p.2.2.2)
             else if v.denomination = 10 then (p.2.1, p.2.2.1, removeFirst p.2.2.2 vid)
             else p.2)
          else p),
        household_balances := idx.household_balances.map (fun p =>
          if p.1 = hid then
            (p.1,
             if v.denomination = 2 then (p.2.1 - 1, p.2.2.1, p.2.2.2)
             else if v.denomination = 5 then (p.2.1, p.2.2.1 - 1, p.2.2.2)
             else if v.denomination = 10 then (p.2.1, p.2.2.1, p.2.2.2 - 1)
             else p.2)
          else p),
        voucher_map := idx.voucher_map.filter (fun p => !(p.1 == vid)) }

/-- The parts of `new_services.store` that `redeem_vouchers` reads and writes. -/
structure Store where
  households : List String
  merchants : List String
  voucher_index : Index
deriving DecidableEq, Repr

/-- Result of `new_services.redeem_vouchers`; the success record carries the
reported `amount_redeemed` (the requested amount), the number of vouchers used,
and the new cached balance. -/
inductive Outcome
  | householdNotFound
  | merchantNotFound
  | insufficientTotal
  | noSuitableVouchers
  | ok (amount_redeemed : Nat) (vouchers_used : Nat) (new_balance : Nat × Nat × Nat)
deriving DecidableEq, Repr

/-- `new_services.redeem_vouchers` with the default "optimal" method: existence
checks, total-balance sufficiency check, greedy selection, removal of the selected
vouchers from the index; reports the requested amount as `amount_redeemed`
whatever the selection actually achieves.  (Row generation and QR data are side
records that read no further state.) -/
def redeem_vouchers (st : Store) (hid mid : String) (amount : Nat) :
    Outcome × Store :=
  if !(st.households.contains hid) then (.householdNotFound, st)
  else if !(st.merchants.contains mid) then (.merchantNotFound, st)
  else
    let bal := get_household_balance st.voucher_index hid
    let total := 2 * bal.1 + 5 * bal.2.1 + 10 * bal.2.2
    if total < amount then (.insufficientTotal, st)
    else
      let vs := find_vouchers_for_redemption st.voucher_index hid amount
      if vs.isEmpty then (.noSuitableVouchers, st)
      else
        let idx1 := vs.foldl (fun i v => remove_voucher i v.voucher_id) st.voucher_index
        (.ok amount vs.length (get_household_balance idx1 hid),
         { st with voucher_index := idx1 })

/-- The concrete state of the conservation counterexample: household `H1` holds
two two-dollar vouchers `A` and `B`. -/
def cexIndex : Index :=
  ⟨[("H1", ([Voucher.mk "A" 2, Voucher.mk "B" 2], [], []))],
   [("H1", (2, 0, 0))],
   [("A", Voucher.mk "A" 2), ("B", Voucher.mk "B" 2)]⟩

/-- The store of the conservation counterexample. -/
def cexStore : Store := ⟨["H1"], ["M1"], cexIndex⟩

end NewServices

/-- C5 counterexample: `new_services.redeem_vouchers` asked for 3 dollars against
a balance of two 2-dollar vouchers (total 4) passes the total-balance check,
greedily consumes a single 2-dollar voucher, and reports `amount_redeemed = 3`:
the reported amount differs from the 2 dollars actually consumed, and the new
total (2) is not the old total minus the reported amount (4 - 3 = 1). -/
theorem ns_redeem_conservation_fails :
    NewServices.get_household_balance NewServices.cexIndex "H1" = (2, 0, 0) ∧
    NewServices.find_vouchers_for_redemption NewServices.cexIndex "H1" 3
      = [NewServices.Voucher.mk "A" 2] ∧
    (NewServices.redeem_vouchers NewServices.cexStore "H1" "M1" 3).1
      = .ok 3 1 (1, 0, 0) ∧
    ((NewServices.find_vouchers_for_redemption NewServices.cexIndex "H1" 3).map
      (fun v => v.denomination)).sum ≠ 3 ∧
    2 * 1 + 5 * 0 + 10 * 0 ≠ (2 * 2 + 5 * 0 + 10 * 0) - 3 := by
  refine ⟨?_, ?_, ?_, ?_, ?_⟩ <;> decide
namespace Redemption

structure Row where
  transaction_id : String
  txDateTime : DateTime6
  payload : String
deriving DecidableEq, Repr

def addToBucket (bs : List (Nat × List Row)) (k : Nat) (r : Row) :
    List (Nat × List Row) :=
  if (bs.lookup k).isSome then
    bs.map (fun p => if p.1 = k then (p.1, p.2 ++ [r]) else p)
  else bs ++ [(k, [r])]

def compile_redemptions_by_hour (rows : List Row) : List (Nat × List Row) :=
  rows.foldl (fun bs r => addToBucket bs (hourKey r.txDateTime) r) []

theorem lookup_map_update {α : Type} (l : List (Nat × α)) (k0 : Nat)
    (f : Nat × α → α) (k : Nat) :
    (l.map (fun p => if p.1 = k0 then (p.1, f p) else p)).lookup k
      = if k = k0 then (l.lookup k).map (fun b => f (k, b)) else l.lookup k := by
  induction l with
  | nil =>
    by_cases h : k = k0 <;> simp [List.lookup, h]
  | cons p t ih =>
    obtain ⟨a, b⟩ := p
    have hhead : ((if a = k0 then ((a : Nat), f (a, b)) else (a, b)) : Nat × α)
        = (a, if a = k0 then f (a, b) else b) := by
      by_cases h : a = k0 <;> simp [h]
    simp only [List.map_cons, hhead]
    by_cases hk : k = a
    · subst hk
      by_cases hak : k = k0 <;> simp [List.lookup, hak]
    · have hba : (k == a) = false := by simp [hk]
      by_cases hkk : k = k0
      · subst hkk
        simp [List.lookup, hba, ih]
      · simp [List.lookup, hba, hkk, ih]

theorem lookup_append_single {α : Type} (l : List (Nat × α)) (k0 : Nat) (v : α)
    (k : Nat) :
    (l ++ [(k0, v)]).lookup k
      = match l.lookup k with
        | some w => some w
        | none => if k = k0 then some v else none := by
  induction l with
  | nil =>
    by_cases h : k = k0
    · simp [List.lookup, h]
    · have hb : (k == k0) = false := by simp [h]
      simp [List.lookup, hb, h]
  | cons p t ih =>
    obtain ⟨a, b⟩ := p
    by_cases hk : k = a
    · subst hk
      simp [List.lookup]
    · have hba : (k == a) = false := by simp [hk]
      simp [List.lookup, hba, ih]

theorem fold_buckets (rows : List Row) :
    ∀ (bs : List (Nat × List Row)) (k : Nat),
      (rows.foldl (fun bs r => addToBucket bs (hourKey r.txDateTime) r) bs).lookup k
        = match bs.lookup k with
          | some l => some (l ++ rows.filter (fun r => hourKey r.txDateTime == k))
          | none =>
            if (rows.filter (fun r => hourKey r.txDateTime == k)).isEmpty then none
            else some (rows.filter (fun r => hourKey r.txDateTime == k)) := by
  induction rows with
  | nil =>
    intro bs k
    cases h : bs.lookup k <;> simp [h]
  | cons r rest ih =>
    intro bs k
    rw [List.foldl_cons, ih]
    by_cases hk : hourKey r.txDateTime = k
    · have hcond : (hourKey r.txDateTime == k) = true := by simp [hk]
      cases h : bs.lookup k with
      | some l =>
        have hsome : (bs.lookup (hourKey r.txDateTime)).isSome := by
          rw [hk, h]; rfl
        have hstep : (addToBucket bs (hourKey r.txDateTime) r).lookup k
            = some (l ++ [r]) := by
          unfold addToBucket
          rw [if_pos hsome, lookup_map_update, if_pos hk.symm, h]
          rfl
        rw [hstep]
        simp [hcond, h]
      | none =>
        have hnone : ¬ (bs.lookup (hourKey r.txDateTime)).isSome := by
          rw [hk, h]; simp
        have hstep : (addToBucket bs (hourKey r.txDateTime) r).lookup k
            = some [r] := by
          unfold addToBucket
          rw [if_neg hnone, lookup_append_single, h]
          simp [hk.symm]
        rw [hstep]
        simp [hcond, h]
    · have hcond : (hourKey r.txDateTime == k) = false := by simp [hk]
      have hk' : ¬ k = hourKey r.txDateTime := fun h => hk h.symm
      have hpres : (addToBucket bs (hourKey r.txDateTime) r).lookup k
          = bs.lookup k := by
        unfold addToBucket
        by_cases hs : (bs.lookup (hourKey r.txDateTime)).isSome
        · rw [if_pos hs, lookup_map_update, if_neg hk']
        · rw [if_neg hs, lookup_append_single]
          cases h : bs.lookup k with
          | some w => rfl
          | none => simp [hk']
      rw [hpres]
      simp [List.filter_cons, hcond]

end Redemption

namespace Cdc

/-- A committed transaction as `CDCSystem.export_hourly_summary_csv` reads it:
household and commit timestamp (whose `YYYYMMDDHH` prefix drives the filter). -/
structure Tx where
  transaction_id : String
  household_id : String
  txTime : DateTime6
deriving DecidableEq, Repr

/-- The hour filter of `CDCSystem.export_hourly_summary_csv`: the output file is
keyed by the current hour, and only transactions whose timestamp carries that
same hour prefix contribute redemption rows to it. -/
def export_contributing (now : DateTime6) (txs : List Tx) : Nat × List Tx :=
  (hourKey now, txs.filter (fun t => hourKey t.txTime == hourKey now))

end Cdc

/-- C9: audit rows are bucketed by the hour of the transaction timestamp.  For
`compile_redemptions_by_hour`, the bucket of key `k` holds exactly the input rows
whose transaction hour is `k`, in order — in particular every row lands in the
bucket of its own transaction hour and nowhere else.  `services.redeem` keys its
output file by the hour of the transaction's timestamp.  The `cdc_classes`
hourly export only writes redemption rows of transactions whose timestamp hour
equals the file's key. -/
theorem audit_rows_bucketed_by_transaction_hour :
    (∀ (rows : List Redemption.Row) (k : Nat),
      (Redemption.compile_redemptions_by_hour rows).lookup k
        = if (rows.filter (fun r => hourKey r.txDateTime == k)).isEmpty then none
          else some (rows.filter (fun r => hourKey r.txDateTime == k))) ∧
    (∀ (st : Services.Store) (tx : Services.TxMeta) (reqs : List (Nat × Nat)),
      (Services.redeem st tx reqs).1.fileKey = hourKey tx.txTime) ∧
    (∀ (now : DateTime6) (txs : List Cdc.Tx) (t : Cdc.Tx),
      t ∈ (Cdc.export_contributing now txs).2 →
      hourKey t.txTime = (Cdc.export_contributing now txs).1) := by
  refine ⟨?_, ?_, ?_⟩
  · intro rows k
    unfold Redemption.compile_redemptions_by_hour
    rw [Redemption.fold_buckets]
    simp [List.lookup]
  · intro st tx reqs
    rfl
  · intro now txs t ht
    unfold Cdc.export_contributing at ht ⊢
    simp only at ht ⊢
    rw [List.mem_filter] at ht
    simpa using ht.2

/-- Witness: three rows in two distinct hours; the 10-oclock bucket holds exactly
the two 10-oclock rows in input order. -/
theorem audit_rows_bucketed_by_transaction_hour_witness :
    (Redemption.compile_redemptions_by_hour
      [⟨"T1", ⟨2025, 7, 1, 10, 0, 0⟩, "a"⟩,
       ⟨"T2", ⟨2025, 7, 1, 11, 0, 0⟩, "b"⟩,
       ⟨"T3", ⟨2025, 7, 1, 10, 30, 0⟩, "c"⟩]).lookup 2025070110
      = some [⟨"T1", ⟨2025, 7, 1, 10, 0, 0⟩, "a"⟩,
              ⟨"T3", ⟨2025, 7, 1, 10, 30, 0⟩, "c"⟩] := by
  rw [audit_rows_bucketed_by_transaction_hour.1]
  decide
